import Mathlib

/-!
Verification of the asynchronous actuator-motion control core of the
odemis driver layer (src/odemis/driver/phenom.py and
src/odemis/driver/xt_client.py) against its natural-language
specification.

Numeric axis values are embedded as integers (`Int`): the claims under
verification are control-flow and ordering properties of the driver
code, none of which depends on fractional values.  Positions and
shifts (Python dicts from axis name to value) are embedded as
association lists `List (String × Int)`.  Device interaction is made
observable by having each embedded operation return the ordered list of
hardware (transport) calls it issues.  Code that lives in the repository
but outside the provided sources (the `odemis.model` actuator base
class, `CancellableThreadPoolExecutor`, `InstantaneousFuture`,
`RepeatingTimer`) is modelled from the specification, and each such
definition is marked `Modelled from the spec:` in its doc comment.
-/

namespace Odemis

/-- Python-level errors raised by the embedded driver code paths.
`outOfRange` stands for the spec's `OutOfRangeError` (out-of-range
absolute move), `unknownAxis` for the rejection of a move naming an axis
the controller does not have, `valueError` for `ValueError`, `typeError`
for `TypeError`, and `webFault` for a transport fault
(`suds.WebFault` / remote `OSError`). -/
inductive PyError
  | outOfRange
  | unknownAxis
  | valueError
  | typeError
  | webFault
deriving DecidableEq

/-- An axis with an inclusive numeric range, as built by the drivers
from `model.Axis(unit=..., range=(min, max))`. -/
structure Axis where
  min : Int
  max : Int
deriving DecidableEq

/-- Association-list lookup for positions/axes (Python `d[k]`), with a
default for totality; the embedded code only applies it to keys that
are present. -/
def alistGet (l : List (String × Int)) (k : String) : Int :=
  match l.find? (fun p => p.1 == k) with
  | some p => p.2
  | none => 0

/-- Association-list lookup of an axis definition. -/
def axisFind (axes : List (String × Axis)) (k : String) : Option Axis :=
  match axes.find? (fun p => p.1 == k) with
  | some p => some p.2
  | none => none

/-- Association-list update (Python `d[k] = v` for a key already
present). -/
def alistSet (l : List (String × Int)) (k : String) (v : Int) : List (String × Int) :=
  l.map (fun p => if p.1 == k then (p.1, v) else p)

/-- numpy.clip: `numpy.clip(v, lo, hi) = min (max v lo) hi` (returns
`hi` when `lo > hi`, like numpy), written with explicit conditionals so
it evaluates on concrete inputs. -/
def npClip (v lo hi : Int) : Int :=
  if hi ≤ (if v ≤ lo then lo else v) then hi else (if v ≤ lo then lo else v)

end Odemis

namespace Odemis.PhenomFocus

/-!
Embedding of `PhenomFocus` (phenom.py, class `PhenomFocus`,
lines 810-915): the Policy-B (coalescing) focus actuator.  The pending
moves live in `self._moves_queue`, a deque of `("moveRel", shift)` /
`("moveAbs", pos)` pairs; `_checkQueue` runs on the single worker and
drains the whole queue into one `SetWD` hardware write.
-/

/-- One entry of `PhenomFocus._moves_queue`: either
`("moveRel", {"z": z})` or `("moveAbs", {"z": z})`. -/
inductive FocusMove
  | rel (z : Int)
  | abs (z : Int)
deriving DecidableEq

/-- Hardware calls issued by the focus actuator: `GetWD` (read the
working distance) and `SetWD w` (command the working distance). -/
inductive FocusCall
  | getWD
  | setWD (w : Int)
deriving DecidableEq

/-- The while-loop of `PhenomFocus._checkQueue` (phenom.py:871-880):
starting from the read-back working distance, a `moveRel` entry adds its
delta, a `moveAbs` entry replaces the accumulated value. -/
def drainQueue (wd : Int) : List FocusMove → Int
  | [] => wd
  | FocusMove.rel z :: q => drainQueue (wd + z) q
  | FocusMove.abs z :: q => drainQueue z q

/-- State of the embedded focus actuator: the pending queue, the
device's working distance, the axis range `self.rng`, and the cached
position VA. -/
structure FocusState where
  queue : List FocusMove
  wd : Int
  rng : Int × Int
  cachePos : Int
deriving DecidableEq

/-- Embedding of `PhenomFocus._checkQueue` (phenom.py:861-884).  If the
queue is empty it returns immediately (no hardware call); otherwise it
reads `wd = self.GetWD()`, folds the whole queue, clips the result to
`self.rng` with `numpy.clip`, issues a single `SetWD`, and refreshes the
position VA via `_updatePosition` (which reads `GetWD` again). -/
def checkQueue (s : FocusState) : List FocusCall × FocusState :=
  if s.queue.isEmpty then ([], s)
  else
    let w := npClip (drainQueue s.wd s.queue) s.rng.1 s.rng.2
    ([FocusCall.getWD, FocusCall.setWD w, FocusCall.getWD],
     { queue := [], wd := w, rng := s.rng, cachePos := w })

/-- Number of hardware writes (`SetWD` calls) in a call trace. -/
def writeCount (calls : List FocusCall) : Nat :=
  (calls.filter (fun c => match c with | FocusCall.setWD _ => true | _ => false)).length

end Odemis.PhenomFocus

namespace Odemis

/-- Modelled from the spec: `model.Actuator._checkMoveAbs`, the
synchronous validation used by every `moveAbs` (the `odemis.model`
actuator base class is not among the provided sources).  Per the spec,
"for every axis in `pos`, value must satisfy the Axis range, else the
call is rejected synchronously" and every key must correspond to a known
Axis of the controller. -/
def checkMoveAbs (axes : List (String × Axis)) : List (String × Int) → Except PyError Unit
  | [] => Except.ok ()
  | (a, v) :: rest =>
    match axisFind axes a with
    | none => Except.error PyError.unknownAxis
    | some ax =>
      if ax.min ≤ v ∧ v ≤ ax.max then checkMoveAbs axes rest
      else Except.error PyError.outOfRange

/-- Modelled from the spec: `model.Actuator._checkMoveRel`, the
synchronous validation used by every `moveRel` (not among the provided
sources).  Modelled as axis-name validation only: the spec's data model
requires every key of a request to name a known Axis, and the
in-task range check of `Stage._doMoveRel` (xt_client.py:1195-1199)
shows that an out-of-range target is not rejected here. -/
def checkMoveRel (axes : List (String × Axis)) : List (String × Int) → Except PyError Unit
  | [] => Except.ok ()
  | (a, _) :: rest =>
    match axisFind axes a with
    | none => Except.error PyError.unknownAxis
    | some _ => checkMoveRel axes rest

/-- Modelled from the spec: axis inversion for absolute positions
("Applies any configured axis inversion before enqueuing"); an inverted
axis value `v` maps to `min + max - v`. -/
def applyInversionAbs (inverted : List String) (axes : List (String × Axis))
    (pos : List (String × Int)) : List (String × Int) :=
  pos.map (fun p =>
    if p.1 ∈ inverted then
      match axisFind axes p.1 with
      | some ax => (p.1, ax.min + ax.max - p.2)
      | none => p
    else p)

/-- Modelled from the spec: axis inversion for relative shifts; an
inverted axis delta is negated. -/
def applyInversionRel (inverted : List String) (shift : List (String × Int)) :
    List (String × Int) :=
  shift.map (fun p => if p.1 ∈ inverted then (p.1, -p.2) else p)

/-- Result of a caller-thread submission: either an `InstantaneousFuture`
(already-completed no-op task, modelled from the spec) or a task
submitted to the actuator's single-worker executor. -/
inductive SubmitOutcome
  | instantaneous
  | scheduled (payload : List (String × Int))
deriving DecidableEq

/-- Decidable equality for `Except`, needed to evaluate the embedded
operations on concrete inputs. -/
instance exceptDecEq {α β : Type} [DecidableEq α] [DecidableEq β] :
    DecidableEq (Except α β) := fun a b =>
  match a, b with
  | Except.ok x, Except.ok y =>
    if h : x = y then isTrue (by rw [h]) else isFalse (by intro hc; cases hc; exact h rfl)
  | Except.error x, Except.error y =>
    if h : x = y then isTrue (by rw [h]) else isFalse (by intro hc; cases hc; exact h rfl)
  | Except.ok _, Except.error _ => isFalse (by intro hc; cases hc)
  | Except.error _, Except.ok _ => isFalse (by intro hc; cases hc)

/-- Observable effect of a caller-thread `moveAbs`/`moveRel` body:
the synchronous result, the number of hardware calls made on the
caller's thread, and the position cache afterwards. -/
structure SubmitStep where
  result : Except PyError SubmitOutcome
  deviceCalls : Nat
  cache : List (String × Int)
deriving DecidableEq

/-- Embedding of the caller-thread body of `Stage.moveAbs`
(phenom.py:789-797 and xt_client.py:1226-1244, which have the same
shape): an empty `pos` returns an `InstantaneousFuture`; otherwise
`_checkMoveAbs` may reject synchronously; otherwise the inverted
position is submitted to the single-worker executor.  No hardware call
is made and the position cache is not touched on this path. -/
def stageMoveAbs (axes : List (String × Axis)) (inverted : List String)
    (cache : List (String × Int)) (pos : List (String × Int)) : SubmitStep :=
  if pos.isEmpty then ⟨Except.ok SubmitOutcome.instantaneous, 0, cache⟩
  else
    match checkMoveAbs axes pos with
    | Except.error e => ⟨Except.error e, 0, cache⟩
    | Except.ok _ =>
      ⟨Except.ok (SubmitOutcome.scheduled (applyInversionAbs inverted axes pos)), 0, cache⟩

end Odemis

namespace Odemis.XTStage

/-!
Embedding of the xt_client `Stage` actuator (xt_client.py, class
`Stage`, lines 1079-1283).  Hardware calls go through the parent `SEM`
component: `move_stage`, `get_stage_position`, `stage_is_moving`,
`stop_stage_movement` (the abort primitive).
-/

/-- Transport calls of the xt_client stage. -/
inductive XTCall
  | moveStage (pos : List (String × Int))
  | getStagePos
  | isMovingQ
  | stopMovement
deriving DecidableEq

/-- Resolution of a move task.  `timedOut` is the spec's `Timeout`
failure; it is part of the outcome vocabulary so that theorems can state
whether the code ever produces it. -/
inductive Outcome
  | success
  | cancelled
  | deviceFault
  | timedOut
deriving DecidableEq

/-- The settle-polling while-loop of `Stage._moveTo`
(xt_client.py:1158-1172), one poll tick per iteration.  Each iteration
reads `get_stage_position` and `stage_is_moving`; then, if the elapsed
ticks reached the timeout (`time.time() > tstart + timeout`), it calls
`stop_stage_movement` and breaks; otherwise the loop continues while the
device reported moving.  `fuel` is a structural bound; the caller passes
`timeout + 1`, which the timeout branch never exhausts. -/
def settleLoop (mv : Nat → Bool) (timeout : Nat) : Nat → Nat → List XTCall
  | _, 0 => []
  | i, fuel + 1 =>
    if timeout ≤ i then [XTCall.getStagePos, XTCall.isMovingQ, XTCall.stopMovement]
    else if mv i then
      XTCall.getStagePos :: XTCall.isMovingQ :: settleLoop mv timeout (i + 1) fuel
    else [XTCall.getStagePos, XTCall.isMovingQ]

/-- Embedding of `Stage._moveTo` (xt_client.py:1145-1186).
`stopEntry` / `stopEnd` are the states of `future._must_stop` at the two
points where the code consults it (on entry, and after the loop /
in the except clause); the loop itself deliberately does not consult it.
`mv` gives the device's `stage_is_moving` answers, `moveFault` says
whether `move_stage` raises a transport fault, `timeout` is the
per-operation bound in poll ticks.  The `finally` block always performs
one more `_updatePosition`, i.e. one more `get_stage_position`.  Note
that a timeout without cancellation only logs and breaks: the task then
resolves as a normal success. -/
def moveTo (stopEntry stopEnd : Bool) (mv : Nat → Bool) (moveFault : Bool)
    (timeout : Nat) (pos : List (String × Int)) : Outcome × List XTCall :=
  if stopEntry then (Outcome.cancelled, [XTCall.getStagePos])
  else if moveFault then
    ((if stopEnd then Outcome.cancelled else Outcome.deviceFault),
     [XTCall.moveStage pos, XTCall.getStagePos])
  else
    ((if stopEnd then Outcome.cancelled else Outcome.success),
     XTCall.moveStage pos :: (settleLoop mv timeout 0 (timeout + 1) ++ [XTCall.getStagePos]))

/-- Number of abort (`stop_stage_movement`) calls in a trace. -/
def abortCount (calls : List XTCall) : Nat :=
  calls.countP (fun c => decide (c = XTCall.stopMovement))

/-- Number of `stage_is_moving` polls in a trace. -/
def pollCount (calls : List XTCall) : Nat :=
  calls.countP (fun c => decide (c = XTCall.isMovingQ))

/-- The `for k, v in shift.items(): pos[k] += v` loop of
`Stage._doMoveRel` (xt_client.py:1190-1191). -/
def addShift (pos shift : List (String × Int)) : List (String × Int) :=
  shift.foldl (fun p kv => alistSet p kv.1 (alistGet p kv.1 + kv.2)) pos

/-- Embedding of `Stage._doMoveRel` (xt_client.py:1188-1201), the body
that runs inside the submitted task on the worker: it reads the device
position (`get_stage_position`), adds the shift, applies inversion, and
range-checks the moved axes; a violation raises `ValueError` there,
failing the task before `_moveTo` issues any move command.  On success
it returns the target position passed on to `_moveTo`. -/
def doMoveRel (axes : List (String × Axis)) (inverted : List String)
    (devPos : List (String × Int)) (shift : List (String × Int)) :
    Except PyError (List (String × Int)) × List XTCall :=
  let pos := addShift devPos shift
  let target := applyInversionAbs inverted axes pos
  if shift.all (fun kv =>
       match axisFind axes kv.1 with
       | some ax => decide (ax.min ≤ alistGet target kv.1 ∧ alistGet target kv.1 ≤ ax.max)
       | none => true)
  then (Except.ok pos, [XTCall.getStagePos])
  else (Except.error PyError.valueError, [XTCall.getStagePos])

/-- Embedding of the caller-thread body of `Stage.moveRel`
(xt_client.py:1203-1221; `Focus.moveRel` at 1414-1425 and the phenom
`Stage.moveRel` at phenom.py:780-787 have the same shape): an empty
shift returns an `InstantaneousFuture`; `_checkMoveRel` may reject;
otherwise the inverted shift is submitted to the executor.  No range
check against the current position happens on this path. -/
def moveRelSync (axes : List (String × Axis)) (inverted : List String)
    (shift : List (String × Int)) : Except PyError SubmitOutcome :=
  if shift.isEmpty then Except.ok SubmitOutcome.instantaneous
  else
    match checkMoveRel axes shift with
    | Except.error e => Except.error e
    | Except.ok _ => Except.ok (SubmitOutcome.scheduled (applyInversionRel inverted shift))

/-- Calls made by `Stage._cancelCurrentMove` (xt_client.py:1266-1283):
it sets `future._must_stop` and calls `stop_stage_movement` once. -/
def cancelCurrentMoveCalls : List XTCall := [XTCall.stopMovement]

/-- Calls made by the body of `Stage.stop` (xt_client.py:1246-1253)
after `self._executor.cancel()`: one more `stop_stage_movement`, then a
position refresh (wrapped in try/except). -/
def stopAfterCancelCalls : List XTCall := [XTCall.stopMovement, XTCall.getStagePos]

/-- Embedding of `Stage.stop` (xt_client.py:1246-1253) for an idle
executor (no running task, so `executor.cancel()` invokes no
canceller).  `abortFault` says whether the unguarded
`stop_stage_movement` call raises; `refreshFault` says whether the
position refresh raises — the latter is caught and logged
(xt_client.py:1250-1253), so it never makes `stop` raise, which is why
the returned raised-flag ignores it. -/
def stageStop (abortFault refreshFault : Bool) : List XTCall × Bool :=
  if abortFault then ([XTCall.stopMovement], true)
  else ([XTCall.stopMovement, XTCall.getStagePos], refreshFault && false)

/-- The scenario of the spec's cancellation property: a move is in
flight against a device that never reports settled, and `stop()` is
called.  The canceller (`_cancelCurrentMove`) sets `_must_stop` and
aborts; the worker's loop polls to the timeout, aborts and breaks, and
the set flag turns the resolution into `Cancelled`; `stop()` then aborts
once more and refreshes.  Returns the task outcome and the total number
of abort calls observed by the transport. -/
def stopDuringNeverSettling (timeout : Nat) (pos : List (String × Int)) : Outcome × Nat :=
  let w := moveTo false true (fun _ => true) false timeout pos
  (w.1, abortCount w.2 + abortCount cancelCurrentMoveCalls + abortCount stopAfterCancelCalls)

end Odemis.XTStage

namespace Odemis.PhenomStage

/-!
Embedding of the phenom `Stage` actuator (phenom.py, class `Stage`,
lines 693-808).
-/

/-- Transport calls of the phenom stage: `MoveTo`, `MoveBy`, and
`GetStageModeAndPosition` (the read-back used by `_updatePosition`). -/
inductive Call
  | moveToCall (x y : Int)
  | moveByCall (x y : Int)
  | getModeAndPosition
deriving DecidableEq

/-- Embedding of `Stage._doMoveAbs` (phenom.py:749-763), run on the
worker: it calls `MoveTo` and then `_updatePosition` (a
`GetStageModeAndPosition` read-back).  The refresh is *not* in a
`finally` block, so when `MoveTo` raises a transport fault the position
VA is not refreshed. -/
def doMoveAbs (moveFault : Bool) (x y : Int) : Except PyError Unit × List Call :=
  if moveFault then (Except.error PyError.webFault, [Call.moveToCall x y])
  else (Except.ok (), [Call.moveToCall x y, Call.getModeAndPosition])

/-- Embedding of phenom `Stage.stop` (phenom.py:799-802): it cancels the
executor and logs a warning; it makes no device call and does not
refresh the position VA.  It cannot raise. -/
def stageStop : List Call × Bool := ([], false)

end Odemis.PhenomStage

namespace Odemis.PhenomFocus

/-- Embedding of the caller-thread body of `PhenomFocus.moveRel`
(phenom.py:886-894): an empty shift returns an `InstantaneousFuture`
and leaves the queue alone; otherwise the (inverted) shift is appended
to `_moves_queue` as a `("moveRel", shift)` entry and a `_checkQueue`
task is submitted.  No hardware call happens on this path. -/
def moveRelSubmit (axes : List (String × Axis)) (inverted : List String)
    (s : FocusState) (shift : List (String × Int)) :
    Except PyError SubmitOutcome × FocusState :=
  if shift.isEmpty then (Except.ok SubmitOutcome.instantaneous, s)
  else
    match checkMoveRel axes shift with
    | Except.error e => (Except.error e, s)
    | Except.ok _ =>
      let sh := applyInversionRel inverted shift
      (Except.ok (SubmitOutcome.scheduled sh),
       { s with queue := s.queue ++ [FocusMove.rel (alistGet sh "z")] })

/-- Embedding of the caller-thread body of `PhenomFocus.moveAbs`
(phenom.py:896-904): same shape as `moveRelSubmit`, appending a
`("moveAbs", pos)` entry. -/
def moveAbsSubmit (axes : List (String × Axis)) (inverted : List String)
    (s : FocusState) (pos : List (String × Int)) :
    Except PyError SubmitOutcome × FocusState :=
  if pos.isEmpty then (Except.ok SubmitOutcome.instantaneous, s)
  else
    match checkMoveAbs axes pos with
    | Except.error e => (Except.error e, s)
    | Except.ok _ =>
      let p := applyInversionAbs inverted axes pos
      (Except.ok (SubmitOutcome.scheduled p),
       { s with queue := s.queue ++ [FocusMove.abs (alistGet p "z")] })

end Odemis.PhenomFocus

namespace Odemis.Chamber

/-!
Embedding of the phenom `ChamberPressure` actuator (phenom.py, class
`ChamberPressure`, lines 1157-1318).  Its single axis "pressure" is a
choices axis with values `PRESSURE_UNLOADED = 1e5`,
`PRESSURE_NAVCAM = 1e4`, `PRESSURE_SEM = 1e-2` (in Pa; the embedding
scales pressures by 100, i.e. works in units of 0.01 Pa, so that all
values are integers).
-/

/-- The choice set of the "pressure" axis (phenom.py:1153-1155,
1164-1167). -/
def chamberChoices : List Int := [10000000, 1000000, 1]

/-- Modelled from the spec: the `_checkMoveRel` validation restricted to
the chamber's axes — every key of the shift must name the known axis
"pressure". -/
def chamberCheckMoveRel (shift : List (String × Int)) : Except PyError Unit :=
  if shift.all (fun p => p.1 == "pressure") then Except.ok ()
  else Except.error PyError.unknownAxis

/-- Modelled from the spec: the `_checkMoveAbs` validation for a choices
axis — every key must be "pressure" and every value a member of the
choice set. -/
def chamberCheckMoveAbs (pos : List (String × Int)) : Except PyError Unit :=
  if pos.all (fun p => p.1 == "pressure" && decide (p.2 ∈ chamberChoices)) then Except.ok ()
  else Except.error PyError.outOfRange

/-- Embedding of `ChamberPressure.moveRel` (phenom.py:1238-1247).  After
`_checkMoveRel`, the body runs `for a, v in shift.items:` —
`shift.items` is the dict *method object*, not the result of calling
it, so iterating over it raises `TypeError` in Python before anything
else happens; the conversion to an absolute move and the call to
`moveAbs` are unreachable, for the empty shift as well. -/
def chamberMoveRel (cache : List (String × Int)) (shift : List (String × Int)) : SubmitStep :=
  match chamberCheckMoveRel shift with
  | Except.error e => ⟨Except.error e, 0, cache⟩
  | Except.ok _ => ⟨Except.error PyError.typeError, 0, cache⟩

/-- Embedding of `ChamberPressure.moveAbs` (phenom.py:1249-1261): an
empty `pos` returns an `InstantaneousFuture`; otherwise `_checkMoveAbs`
may reject; otherwise a `ProgressiveFuture` running `_changePressure`
is submitted to the executor. -/
def chamberMoveAbs (cache : List (String × Int)) (pos : List (String × Int)) : SubmitStep :=
  if pos.isEmpty then ⟨Except.ok SubmitOutcome.instantaneous, 0, cache⟩
  else
    match chamberCheckMoveAbs pos with
    | Except.error e => ⟨Except.error e, 0, cache⟩
    | Except.ok _ => ⟨Except.ok (SubmitOutcome.scheduled pos), 0, cache⟩

end Odemis.Chamber

namespace Odemis.ChamberConc

/-!
Interleaving model of the phenom `ChamberPressure` worker and its
remaining-time updater.  `_changePressure` (phenom.py:1286-1314) runs on
the single worker: it takes `parent._acq_progress_lock`, starts the
`RepeatingTimer` running `_updateTime`, and then issues a blocking
device call (`SelectImagingDevice` / `UnloadSample`, which can take
seconds to hours).  `_updateTime` (phenom.py:1316-1318) runs on the
timer's own thread and calls `GetProgressAreaSelection` on the same
device *without taking any lock*.  The timer thread is modelled from the
spec ("a periodic remaining-time query to the device while polling");
everything else is from phenom.py.
-/

/-- Joint state of the worker and the timer thread. -/
structure ChamberState where
  lockHeld : Bool
  workerPC : Nat
  timerOn : Bool
  workerInCall : Bool
  timerInCall : Bool
deriving DecidableEq

/-- Interleaved atomic steps: the worker acquires the acquisition lock,
starts the timer, then begins/ends its blocking device call; the timer
thread begins/ends a `GetProgressAreaSelection` call whenever it is
running — no lock guards it. -/
inductive ChamberAct
  | acquireLock
  | startTimer
  | workerBeginCall
  | workerEndCall
  | timerBeginCall
  | timerEndCall
deriving DecidableEq

/-- Small-step semantics; `none` means the step is not enabled. -/
def chamberStep (s : ChamberState) : ChamberAct → Option ChamberState
  | ChamberAct.acquireLock =>
    if s.workerPC = 0 ∧ s.lockHeld = false then
      some { s with lockHeld := true, workerPC := 1 }
    else none
  | ChamberAct.startTimer =>
    if s.workerPC = 1 then some { s with timerOn := true, workerPC := 2 } else none
  | ChamberAct.workerBeginCall =>
    if s.workerPC = 2 then some { s with workerInCall := true, workerPC := 3 } else none
  | ChamberAct.workerEndCall =>
    if s.workerPC = 3 then some { s with workerInCall := false, workerPC := 4 } else none
  | ChamberAct.timerBeginCall =>
    if s.timerOn = true ∧ s.timerInCall = false then some { s with timerInCall := true }
    else none
  | ChamberAct.timerEndCall =>
    if s.timerInCall = true then some { s with timerInCall := false } else none

/-- Run a sequence of steps. -/
def chamberRun (s : ChamberState) : List ChamberAct → Option ChamberState
  | [] => some s
  | a :: rest =>
    match chamberStep s a with
    | some s2 => chamberRun s2 rest
    | none => none

/-- Initial state: worker about to execute `_changePressure`, timer not
yet started, no call in flight. -/
def chamberInit : ChamberState := ⟨false, 0, false, false, false⟩

/-- Number of transport calls in flight for the chamber actuator. -/
def inFlight (s : ChamberState) : Nat :=
  (if s.workerInCall then 1 else 0) + (if s.timerInCall then 1 else 0)

end Odemis.ChamberConc

namespace Odemis.XTConn

/-!
Model of the xt_client connection-scoped serialization.  Every device
method of the parent `SEM` component wraps its transport call in
`with self._proxy_access:` (xt_client.py:67 and throughout the class),
whichever thread calls it — the actuator's worker, the position-poll
timer (`_refreshPosition`), or a caller thread running `stop()` or
`_cancelCurrentMove`.  Threads are modelled as indices into a list of
per-thread statuses.
-/

/-- Status of one thread with respect to the `_proxy_access` lock:
outside the `with` block, holding the lock, or holding the lock while
its transport call is in flight. -/
inductive TStat
  | outside
  | locked
  | calling
deriving DecidableEq

/-- Whether a thread is outside the `with self._proxy_access` block. -/
def isOutside : TStat → Bool
  | TStat.outside => true
  | _ => false

/-- Whether a thread has a transport call in flight. -/
def isCalling : TStat → Bool
  | TStat.calling => true
  | _ => false

/-- Interleaved atomic steps of thread `i`: acquire the mutex (enabled
only when nobody holds it), begin the transport call, end it, release
the mutex.  The `with` statement's structure forces this order per
thread. -/
inductive ConnAct
  | acquire (i : Nat)
  | beginCall (i : Nat)
  | endCall (i : Nat)
  | release (i : Nat)
deriving DecidableEq

/-- Small-step semantics over the list of thread statuses. -/
def connStep (ts : List TStat) : ConnAct → Option (List TStat)
  | ConnAct.acquire i =>
    if ts.all isOutside = true ∧ i < ts.length then some (ts.set i TStat.locked) else none
  | ConnAct.beginCall i =>
    if ts.get? i = some TStat.locked then some (ts.set i TStat.calling) else none
  | ConnAct.endCall i =>
    if ts.get? i = some TStat.calling then some (ts.set i TStat.locked) else none
  | ConnAct.release i =>
    if ts.get? i = some TStat.locked then some (ts.set i TStat.outside) else none

/-- Run a sequence of steps. -/
def connRun (ts : List TStat) : List ConnAct → Option (List TStat)
  | [] => some ts
  | a :: rest =>
    match connStep ts a with
    | some ts2 => connRun ts2 rest
    | none => none

/-- Number of threads inside the `with self._proxy_access` block. -/
def busyCount (ts : List TStat) : Nat :=
  (ts.filter (fun t => !isOutside t)).length

/-- Number of transport calls in flight on the connection. -/
def callingCount (ts : List TStat) : Nat :=
  (ts.filter isCalling).length

end Odemis.XTConn

namespace Odemis

/-- Helper: `checkMoveAbs` rejects with `outOfRange` whenever every
requested axis is known and some requested value is outside its
inclusive range. -/
theorem checkMoveAbs_outOfRange (axes : List (String × Axis)) :
    ∀ pos : List (String × Int),
    (∀ p ∈ pos, (axisFind axes p.1).isSome = true) →
    (∃ p ∈ pos, ∃ ax, axisFind axes p.1 = some ax ∧ (p.2 < ax.min ∨ ax.max < p.2)) →
    checkMoveAbs axes pos = Except.error PyError.outOfRange := by
  intro pos
  induction pos with
  | nil =>
    intro _ hex
    obtain ⟨p, hp, _⟩ := hex
    exact absurd hp (List.not_mem_nil p)
  | cons q rest ih =>
    intro hall hex
    obtain ⟨a, v⟩ := q
    have hsome := hall (a, v) (List.mem_cons_self _ _)
    obtain ⟨ax, hax⟩ := Option.isSome_iff_exists.mp hsome
    simp only [checkMoveAbs, hax]
    by_cases hr : ax.min ≤ v ∧ v ≤ ax.max
    · rw [if_pos hr]
      apply ih
      · intro p hp
        exact hall p (List.mem_cons_of_mem _ hp)
      · obtain ⟨p, hp, ax2, hax2, hout⟩ := hex
        rcases List.mem_cons.mp hp with heq | hmem
        · subst heq
          simp only at hax2
          rw [hax] at hax2
          injection hax2 with hax2
          subst hax2
          rcases hout with h | h
          · exact absurd h (not_lt.mpr hr.1)
          · exact absurd h (not_lt.mpr hr.2)
        · exact ⟨p, hmem, ax2, hax2, hout⟩
    · rw [if_neg hr]

end Odemis

namespace Odemis

/-- Claim C2: for a Policy-B (focus-like) actuator, the worker's
dispatch (`PhenomFocus._checkQueue`) folds the pending queue in order
starting from the current read-back working distance — each relative
request adds its delta, each absolute request replaces the accumulated
value discarding all earlier pending deltas — clips the result to the
axis range, and issues exactly one hardware write; an empty queue
completes as a no-op without any device call. -/
theorem claim_C2 :
    (∀ (wd : Int) (rng : Int × Int) (cachePos : Int),
      PhenomFocus.checkQueue ⟨[], wd, rng, cachePos⟩ = ([], ⟨[], wd, rng, cachePos⟩))
    ∧ (∀ s : PhenomFocus.FocusState, s.queue ≠ [] →
        PhenomFocus.checkQueue s =
          ([PhenomFocus.FocusCall.getWD,
            PhenomFocus.FocusCall.setWD
              (npClip (PhenomFocus.drainQueue s.wd s.queue) s.rng.1 s.rng.2),
            PhenomFocus.FocusCall.getWD],
           ⟨[], npClip (PhenomFocus.drainQueue s.wd s.queue) s.rng.1 s.rng.2, s.rng,
            npClip (PhenomFocus.drainQueue s.wd s.queue) s.rng.1 s.rng.2⟩)
        ∧ PhenomFocus.writeCount (PhenomFocus.checkQueue s).1 = 1)
    ∧ (∀ (wd z : Int) (q : List PhenomFocus.FocusMove),
        PhenomFocus.drainQueue wd (PhenomFocus.FocusMove.rel z :: q) =
          PhenomFocus.drainQueue (wd + z) q)
    ∧ (∀ (wd z : Int) (q1 q2 : List PhenomFocus.FocusMove),
        PhenomFocus.drainQueue wd (q1 ++ PhenomFocus.FocusMove.abs z :: q2) =
          PhenomFocus.drainQueue z q2) := by
  refine ⟨?_, ?_, ?_, ?_⟩
  · intro wd rng cachePos
    rfl
  · intro s hne
    obtain ⟨q, wd, rng, cachePos⟩ := s
    cases q with
    | nil => exact absurd rfl hne
    | cons m q =>
      constructor
      · simp [PhenomFocus.checkQueue]
      · simp [PhenomFocus.checkQueue, PhenomFocus.writeCount]
  · intro wd z q
    rfl
  · intro wd z q1 q2
    induction q1 generalizing wd with
    | nil => rfl
    | cons m q1 ih =>
      cases m with
      | rel z2 => simpa [PhenomFocus.drainQueue] using ih (wd + z2)
      | abs z2 => simpa [PhenomFocus.drainQueue] using ih z2

/-- Witness for claim C2: submitting relative moves `+1, +2, -0.5`
pending before dispatch, with read-back working distance 5 and range
`[0, 100]`, results in exactly one hardware write `SetWD 7.5`. -/
theorem claim_C2_witness :
    PhenomFocus.checkQueue
        ⟨[PhenomFocus.FocusMove.rel 1, PhenomFocus.FocusMove.rel 2,
          PhenomFocus.FocusMove.rel (-1)], 5, (0, 100), 5⟩ =
      ([PhenomFocus.FocusCall.getWD, PhenomFocus.FocusCall.setWD (7),
        PhenomFocus.FocusCall.getWD],
       ⟨[], 7, (0, 100), 7⟩)
    ∧ PhenomFocus.writeCount
        (PhenomFocus.checkQueue
          ⟨[PhenomFocus.FocusMove.rel 1, PhenomFocus.FocusMove.rel 2,
            PhenomFocus.FocusMove.rel (-1)], 5, (0, 100), 5⟩).1 = 1 := by
  have h := claim_C2.2.1
    ⟨[PhenomFocus.FocusMove.rel 1, PhenomFocus.FocusMove.rel 2,
      PhenomFocus.FocusMove.rel (-1)], 5, (0, 100), 5⟩ (by decide)
  refine ⟨?_, h.2⟩
  rw [h.1]
  decide

/-- Claim C3: a `moveAbs` whose non-empty position names only known
axes but contains a value outside an axis's inclusive range is rejected
synchronously with the out-of-range error on the caller's thread: no
task is scheduled, no hardware call is made, and the position cache is
unchanged. -/
theorem claim_C3 (axes : List (String × Axis)) (inverted : List String)
    (cache : List (String × Int)) (pos : List (String × Int))
    (hall : ∀ p ∈ pos, (axisFind axes p.1).isSome = true)
    (hex : ∃ p ∈ pos, ∃ ax, axisFind axes p.1 = some ax ∧ (p.2 < ax.min ∨ ax.max < p.2)) :
    stageMoveAbs axes inverted cache pos =
      ⟨Except.error PyError.outOfRange, 0, cache⟩ := by
  cases pos with
  | nil =>
    obtain ⟨p, hp, _⟩ := hex
    exact absurd hp (List.not_mem_nil p)
  | cons q rest =>
    have hchk := checkMoveAbs_outOfRange axes (q :: rest) hall hex
    simp [stageMoveAbs, hchk]

/-- Witness for claim C3: on an axis `x` with range `[0, 10]`,
`moveAbs {x: 11}` is rejected synchronously with no task, no hardware
call and an unchanged cache. -/
theorem claim_C3_witness :
    stageMoveAbs [("x", Axis.mk 0 10)] [] [("x", 0)] [("x", 11)] =
      ⟨Except.error PyError.outOfRange, 0, [("x", 0)]⟩ :=
  claim_C3 [("x", Axis.mk 0 10)] [] [("x", 0)] [("x", 11)]
    (by decide) ⟨("x", 11), by decide, Axis.mk 0 10, by decide, by decide⟩

/-- Claim C4 (amended): in the xt_client stage, `_moveTo`'s `finally`
block refreshes the position from the device's read-back exactly once
more, whatever the outcome (entry cancellation, transport fault, normal
or timed-out settle loop); in the phenom stage, `_doMoveAbs` refreshes
the position only when the `MoveTo` call succeeds, since the refresh is
not in a `finally` block there. -/
theorem claim_C4 :
    (∀ (stopEntry stopEnd moveFault : Bool) (mv : Nat → Bool) (timeout : Nat)
       (pos : List (String × Int)),
      ∃ pre, (XTStage.moveTo stopEntry stopEnd mv moveFault timeout pos).2 =
        pre ++ [XTStage.XTCall.getStagePos])
    ∧ (∀ x y : Int, PhenomStage.doMoveAbs false x y =
        (Except.ok (), [PhenomStage.Call.moveToCall x y, PhenomStage.Call.getModeAndPosition])) := by
  constructor
  · intro stopEntry stopEnd moveFault mv timeout pos
    cases stopEntry with
    | true => exact ⟨[], rfl⟩
    | false =>
      cases moveFault with
      | true => exact ⟨[XTStage.XTCall.moveStage pos], rfl⟩
      | false =>
        refine ⟨XTStage.XTCall.moveStage pos :: XTStage.settleLoop mv timeout 0 (timeout + 1), ?_⟩
        simp [XTStage.moveTo]
  · intro x y
    rfl

/-- Counterexample for claim C4 as stated: in the phenom stage, a move
whose `MoveTo` transport call faults resolves as Failed with no
position refresh at all after the attempt — the trace holds no
read-back call. -/
theorem claim_C4_counterexample :
    (PhenomStage.doMoveAbs true 0 0).2 = [PhenomStage.Call.moveToCall 0 0]
    ∧ ¬ PhenomStage.Call.getModeAndPosition ∈ (PhenomStage.doMoveAbs true 0 0).2 := by
  decide

/-- Claim C7 (amended): `stop()` cancels the executor; the xt_client
stage then calls the device abort directly and forces a position
refresh whose failure is caught and logged (so the refresh can never
make `stop` raise), but the unguarded abort call itself propagates a
device fault; the phenom controllers' `stop()` only cancels the
executor — it makes no device call and performs no position refresh —
and never raises. -/
theorem claim_C7 :
    (∀ refreshFault : Bool,
      XTStage.stageStop false refreshFault =
        ([XTStage.XTCall.stopMovement, XTStage.XTCall.getStagePos], false))
    ∧ (∀ refreshFault : Bool,
      XTStage.stageStop true refreshFault = ([XTStage.XTCall.stopMovement], true))
    ∧ PhenomStage.stageStop = ([], false) := by
  refine ⟨?_, ?_, rfl⟩
  · intro refreshFault
    simp [XTStage.stageStop]
  · intro refreshFault
    rfl

/-- Counterexample for claim C7 as stated: the phenom stage's `stop()`
is not followed by any forced refresh of the position cache — its trace
holds no device call at all. -/
theorem claim_C7_counterexample :
    PhenomStage.stageStop.1 = []
    ∧ ¬ PhenomStage.Call.getModeAndPosition ∈ PhenomStage.stageStop.1 := by
  decide

/-- Claim C9 (amended): every embedded `moveAbs`/`moveRel` entry point
returns an already-completed no-op task on an empty mapping, without
contacting the device or scheduling work — except
`ChamberPressure.moveRel`, which lacks the empty-mapping guard and
raises `TypeError` on every shift, the empty one included. -/
theorem claim_C9 :
    (∀ (axes : List (String × Axis)) (inverted : List String) (cache : List (String × Int)),
      stageMoveAbs axes inverted cache [] = ⟨Except.ok SubmitOutcome.instantaneous, 0, cache⟩)
    ∧ (∀ (axes : List (String × Axis)) (inverted : List String),
      XTStage.moveRelSync axes inverted [] = Except.ok SubmitOutcome.instantaneous)
    ∧ (∀ (axes : List (String × Axis)) (inverted : List String) (s : PhenomFocus.FocusState),
      PhenomFocus.moveRelSubmit axes inverted s [] = (Except.ok SubmitOutcome.instantaneous, s))
    ∧ (∀ (axes : List (String × Axis)) (inverted : List String) (s : PhenomFocus.FocusState),
      PhenomFocus.moveAbsSubmit axes inverted s [] = (Except.ok SubmitOutcome.instantaneous, s))
    ∧ (∀ cache : List (String × Int),
      Chamber.chamberMoveAbs cache [] = ⟨Except.ok SubmitOutcome.instantaneous, 0, cache⟩)
    ∧ (∀ cache : List (String × Int),
      Chamber.chamberMoveRel cache [] = ⟨Except.error PyError.typeError, 0, cache⟩) := by
  exact ⟨fun _ _ _ => rfl, fun _ _ => rfl, fun _ _ _ => rfl, fun _ _ _ => rfl,
    fun _ => rfl, fun _ => rfl⟩

/-- Counterexample for claim C9 as stated: `ChamberPressure.moveRel({})`
raises `TypeError` instead of returning an already-completed no-op
task. -/
theorem claim_C9_counterexample :
    (Chamber.chamberMoveRel [("pressure", 100000)] []).result = Except.error PyError.typeError
    ∧ ¬ (Chamber.chamberMoveRel [("pressure", 100000)] []).result =
        Except.ok SubmitOutcome.instantaneous := by
  decide

/-- Claim C10: every `ChamberPressure.moveRel` call whose shift passes
axis-name validation raises `TypeError` synchronously — the body
iterates over the dict method object `shift.items` — before contacting
the device or scheduling any task; consequently no relative pressure
move is ever converted into an absolute move or executed (the result is
never a task of any kind). -/
theorem claim_C10 :
    (∀ (cache : List (String × Int)) (shift : List (String × Int)),
      Chamber.chamberCheckMoveRel shift = Except.ok () →
      Chamber.chamberMoveRel cache shift = ⟨Except.error PyError.typeError, 0, cache⟩)
    ∧ (∀ (cache : List (String × Int)) (shift : List (String × Int)) (o : SubmitOutcome),
      ¬ (Chamber.chamberMoveRel cache shift).result = Except.ok o) := by
  constructor
  · intro cache shift h
    simp [Chamber.chamberMoveRel, h]
  · intro cache shift o
    unfold Chamber.chamberMoveRel
    cases hc : Chamber.chamberCheckMoveRel shift <;> simp [hc]

/-- Witness for claim C10: the valid shift `{pressure: +1}` passes
axis-name validation and `moveRel` raises `TypeError` with no device
call, no task, and an unchanged cache. -/
theorem claim_C10_witness :
    Chamber.chamberMoveRel [("pressure", 100000)] [("pressure", 1)] =
      ⟨Except.error PyError.typeError, 0, [("pressure", 100000)]⟩ :=
  claim_C10.1 [("pressure", 100000)] [("pressure", 1)] (by decide)

/-- Helper: against a device that always reports moving, the settle
loop of `Stage._moveTo` runs `fuel` iterations (one poll each) and
issues exactly one abort, in its timeout branch. -/
theorem settleLoop_neverSettled (timeout : Nat) :
    ∀ fuel i : Nat, i + fuel = timeout + 1 → 1 ≤ fuel →
    XTStage.abortCount (XTStage.settleLoop (fun _ => true) timeout i fuel) = 1
    ∧ XTStage.pollCount (XTStage.settleLoop (fun _ => true) timeout i fuel) = fuel := by
  intro fuel
  induction fuel with
  | zero =>
    intro i _ h1
    exact absurd h1 (by omega)
  | succ fuel ih =>
    intro i hsum _
    by_cases hto : timeout ≤ i
    · have hi : i = timeout := by omega
      have hf : fuel = 0 := by omega
      subst hi hf
      simp [XTStage.settleLoop, XTStage.abortCount, XTStage.pollCount]
    · have h2 : 1 ≤ fuel := by omega
      have hrec := ih (i + 1) (by omega) h2
      simp only [XTStage.settleLoop, if_neg hto, if_pos rfl]
      constructor
      · simpa [XTStage.abortCount, List.countP_cons] using hrec.1
      · simpa [XTStage.pollCount, List.countP_cons] using hrec.2

/-- Claim C5 (amended): when `stop()` is called while a move is in
flight against a device that never reports settled, the task resolves
as Cancelled once the per-operation timeout elapses — the loop polls
until settled *or* timeout (there is no secondary shorter timeout) —
and the device abort is called three times, not once: by the cancel
callback (`_cancelCurrentMove`), by the worker's timeout branch, and by
the body of `stop()` itself. -/
theorem claim_C5 (timeout : Nat) (pos : List (String × Int)) :
    (XTStage.stopDuringNeverSettling timeout pos).1 = XTStage.Outcome.cancelled
    ∧ (XTStage.stopDuringNeverSettling timeout pos).2 = 3
    ∧ XTStage.pollCount (XTStage.moveTo false true (fun _ => true) false timeout pos).2 =
        timeout + 1 := by
  have hloop := settleLoop_neverSettled timeout (timeout + 1) 0 (by omega) (by omega)
  refine ⟨rfl, ?_, ?_⟩
  · show XTStage.abortCount
        (XTStage.moveTo false true (fun _ => true) false timeout pos).2
      + XTStage.abortCount XTStage.cancelCurrentMoveCalls
      + XTStage.abortCount XTStage.stopAfterCancelCalls = 3
    have hmv : XTStage.abortCount
        (XTStage.moveTo false true (fun _ => true) false timeout pos).2 = 1 := by
      simp only [XTStage.moveTo, Bool.false_eq_true, if_false]
      simpa [XTStage.abortCount, List.countP_cons, List.countP_append] using hloop.1
    rw [hmv]
    rfl
  · simp only [XTStage.moveTo, Bool.false_eq_true, if_false]
    simpa [XTStage.pollCount, List.countP_cons, List.countP_append] using hloop.2

/-- Counterexample for claim C5 as stated: in the stop-during-move
scenario with a never-settling device and a 2-tick timeout, the task
does resolve as Cancelled, but the device abort is called 3 times, not
exactly once. -/
theorem claim_C5_counterexample :
    (XTStage.stopDuringNeverSettling 2 [("x", 0)]).1 = XTStage.Outcome.cancelled
    ∧ (XTStage.stopDuringNeverSettling 2 [("x", 0)]).2 = 3
    ∧ ¬ (XTStage.stopDuringNeverSettling 2 [("x", 0)]).2 = 1 := by
  decide

/-- Claim C6 (amended): when the settle loop exceeds the per-operation
timeout without a cancellation request, the worker calls the device
abort exactly once and the position cache is still refreshed by the
`finally` block — but the task resolves as a plain success (the timeout
is only logged); no Failed/Timeout resolution exists on this path. -/
theorem claim_C6 (timeout : Nat) (pos : List (String × Int)) :
    (XTStage.moveTo false false (fun _ => true) false timeout pos).1 = XTStage.Outcome.success
    ∧ XTStage.abortCount (XTStage.moveTo false false (fun _ => true) false timeout pos).2 = 1
    ∧ ∃ pre, (XTStage.moveTo false false (fun _ => true) false timeout pos).2 =
        pre ++ [XTStage.XTCall.getStagePos] := by
  have hloop := settleLoop_neverSettled timeout (timeout + 1) 0 (by omega) (by omega)
  refine ⟨rfl, ?_, ?_⟩
  · simp only [XTStage.moveTo, Bool.false_eq_true, if_false]
    simpa [XTStage.abortCount, List.countP_cons, List.countP_append] using hloop.1
  · refine ⟨XTStage.XTCall.moveStage pos ::
      XTStage.settleLoop (fun _ => true) timeout 0 (timeout + 1), ?_⟩
    simp [XTStage.moveTo]

/-- Counterexample for claim C6 as stated: with a device that always
reports moving and a 2-tick timeout, the task resolves as `success`,
not as a Failed/Timeout outcome. -/
theorem claim_C6_counterexample :
    (XTStage.moveTo false false (fun _ => true) false 2 [("x", 0)]).1 = XTStage.Outcome.success
    ∧ ¬ (XTStage.moveTo false false (fun _ => true) false 2 [("x", 0)]).1 =
        XTStage.Outcome.timedOut
    ∧ ¬ (XTStage.moveTo false false (fun _ => true) false 2 [("x", 0)]).1 =
        XTStage.Outcome.deviceFault := by
  decide

/-- Claim C8 (amended): the synchronous part of `Stage.moveRel`
schedules a task whenever the shift passes axis-name validation — it
performs no range check against the current position — and it is the
*scheduled task* (`_doMoveRel`, on the worker, after reading the device
position) that raises `ValueError` when current-plus-delta falls
outside an axis range, before any move command is issued. -/
theorem claim_C8 :
    (∀ (axes : List (String × Axis)) (inverted : List String)
       (shift : List (String × Int)), shift ≠ [] →
      checkMoveRel axes shift = Except.ok () →
      XTStage.moveRelSync axes inverted shift =
        Except.ok (SubmitOutcome.scheduled (applyInversionRel inverted shift)))
    ∧ (∀ (axes : List (String × Axis)) (inverted : List String)
       (devPos shift : List (String × Int)),
      (∃ kv ∈ shift, ∃ ax, axisFind axes kv.1 = some ax ∧
        (alistGet (applyInversionAbs inverted axes (XTStage.addShift devPos shift)) kv.1 < ax.min
         ∨ ax.max <
            alistGet (applyInversionAbs inverted axes (XTStage.addShift devPos shift)) kv.1)) →
      XTStage.doMoveRel axes inverted devPos shift =
        (Except.error PyError.valueError, [XTStage.XTCall.getStagePos])) := by
  constructor
  · intro axes inverted shift hne hok
    cases shift with
    | nil => exact absurd rfl hne
    | cons q rest => simp [XTStage.moveRelSync, hok]
  · intro axes inverted devPos shift hex
    obtain ⟨kv, hkv, ax, hax, hout⟩ := hex
    simp only [XTStage.doMoveRel]
    rw [if_neg]
    intro hall
    have hkv2 := List.all_eq_true.mp hall kv hkv
    rw [hax] at hkv2
    have hin := of_decide_eq_true hkv2
    rcases hout with h | h
    · exact absurd h (not_lt.mpr hin.1)
    · exact absurd h (not_lt.mpr hin.2)

/-- Witness for claim C8: on axis `x` with range `[0, 10]`, device
position `x = 9` and shift `+5`, the synchronous path schedules the
task, and the task body fails with `ValueError` after only the position
read. -/
theorem claim_C8_witness :
    XTStage.moveRelSync [("x", Axis.mk 0 10)] [] [("x", 5)] =
      Except.ok (SubmitOutcome.scheduled [("x", 5)])
    ∧ XTStage.doMoveRel [("x", Axis.mk 0 10)] [] [("x", 9)] [("x", 5)] =
      (Except.error PyError.valueError, [XTStage.XTCall.getStagePos]) := by
  constructor
  · have h := claim_C8.1 [("x", Axis.mk 0 10)] [] [("x", 5)] (by decide) (by decide)
    rw [h]
    decide
  · exact claim_C8.2 [("x", Axis.mk 0 10)] [] [("x", 9)] [("x", 5)]
      ⟨("x", 5), by decide, Axis.mk 0 10, by decide, by decide⟩

/-- Counterexample for claim C8 as stated: with axis `x` ranging over
`[0, 10]`, current device position `x = 9` and requested delta `+5`,
the target `x = 14` is statically out of range, yet the call is *not*
rejected synchronously: a task is scheduled, and the rejection
(`ValueError`) happens later inside that task on the worker. -/
theorem claim_C8_counterexample :
    XTStage.moveRelSync [("x", Axis.mk 0 10)] [] [("x", 5)] =
      Except.ok (SubmitOutcome.scheduled [("x", 5)])
    ∧ (10 : Int) < alistGet (XTStage.addShift [("x", 9)] [("x", 5)]) "x"
    ∧ (XTStage.doMoveRel [("x", Axis.mk 0 10)] [] [("x", 9)] [("x", 5)]).1 =
        Except.error PyError.valueError := by
  decide

end Odemis

namespace Odemis.XTConn

/-- Helper: prepending a thread status adds its indicator to the busy
count. -/
theorem busyCount_cons (t : TStat) (ts : List TStat) :
    busyCount (t :: ts) = (if isOutside t then 0 else 1) + busyCount ts := by
  cases t <;> simp [busyCount, isOutside, List.filter_cons] <;> omega

/-- Helper: prepending a thread status adds its indicator to the
calling count. -/
theorem callingCount_cons (t : TStat) (ts : List TStat) :
    callingCount (t :: ts) = (if isCalling t then 1 else 0) + callingCount ts := by
  cases t <;> first
  | (simp [callingCount, isCalling, List.filter_cons]; omega)
  | simp [callingCount, isCalling, List.filter_cons]

/-- Helper: a thread with a call in flight is inside the lock block, so
the calling count never exceeds the busy count. -/
theorem callingCount_le_busyCount (ts : List TStat) :
    callingCount ts ≤ busyCount ts := by
  induction ts with
  | nil => simp [callingCount, busyCount]
  | cons t ts ih =>
    rw [callingCount_cons, busyCount_cons]
    cases t <;> simp [isCalling, isOutside] <;> omega

/-- Helper: when every thread is outside the lock block, the busy count
is zero. -/
theorem busyCount_of_all_outside (ts : List TStat) (h : ts.all isOutside = true) :
    busyCount ts = 0 := by
  induction ts with
  | nil => rfl
  | cons t ts ih =>
    rw [List.all_cons, Bool.and_eq_true] at h
    rw [busyCount_cons, if_pos h.1, ih h.2]

/-- Helper: replacing the status at an occupied index changes the busy
count by the difference of the two indicators. -/
theorem busyCount_set (ts : List TStat) :
    ∀ (i : Nat) (w v : TStat), ts.get? i = some w →
    busyCount (ts.set i v) + (if isOutside w then 0 else 1)
      = busyCount ts + (if isOutside v then 0 else 1) := by
  induction ts with
  | nil =>
    intro i w v h
    simp at h
  | cons t ts ih =>
    intro i w v h
    cases i with
    | zero =>
      simp only [List.get?] at h
      injection h with h
      subst h
      simp only [List.set, busyCount_cons]
      omega
    | succ i =>
      simp only [List.get?] at h
      simp only [List.set, busyCount_cons]
      have := ih i w v h
      omega

/-- Helper: each connection-lock step preserves the mutual-exclusion
invariant (at most one thread inside the lock block). -/
theorem connStep_busy {ts ts2 : List TStat} {a : ConnAct}
    (h : connStep ts a = some ts2) (hb : busyCount ts ≤ 1) : busyCount ts2 ≤ 1 := by
  cases a with
  | acquire i =>
    simp only [connStep] at h
    split at h
    · injection h with h
      subst h
      rename_i hc
      have hz := busyCount_of_all_outside ts hc.1
      obtain ⟨w, hw⟩ : ∃ w, ts.get? i = some w := by
        rw [List.get?_eq_get hc.2]
        exact ⟨_, rfl⟩
      have hset := busyCount_set ts i w TStat.locked hw
      have hwout : isOutside w = true := by
        have hmem : w ∈ ts := List.get?_mem hw
        exact List.all_eq_true.mp hc.1 w hmem
      rw [hwout] at hset
      simp [isOutside] at hset
      omega
    · exact absurd h (by simp)
  | beginCall i =>
    simp only [connStep] at h
    split at h
    · injection h with h
      subst h
      rename_i hc
      have hset := busyCount_set ts i TStat.locked TStat.calling hc
      simp [isOutside] at hset
      omega
    · exact absurd h (by simp)
  | endCall i =>
    simp only [connStep] at h
    split at h
    · injection h with h
      subst h
      rename_i hc
      have hset := busyCount_set ts i TStat.calling TStat.locked hc
      simp [isOutside] at hset
      omega
    · exact absurd h (by simp)
  | release i =>
    simp only [connStep] at h
    split at h
    · injection h with h
      subst h
      rename_i hc
      have hset := busyCount_set ts i TStat.locked TStat.outside hc
      simp [isOutside] at hset
      omega
    · exact absurd h (by simp)

/-- Helper: runs preserve the mutual-exclusion invariant. -/
theorem connRun_busy :
    ∀ (acts : List ConnAct) (ts ts2 : List TStat),
    connRun ts acts = some ts2 → busyCount ts ≤ 1 → busyCount ts2 ≤ 1 := by
  intro acts
  induction acts with
  | nil =>
    intro ts ts2 h hb
    simp only [connRun] at h
    injection h with h
    subst h
    exact hb
  | cons a rest ih =>
    intro ts ts2 h hb
    simp only [connRun] at h
    cases hs : connStep ts a with
    | none => rw [hs] at h; exact absurd h (by simp)
    | some ts1 =>
      rw [hs] at h
      exact ih ts1 ts2 h (connStep_busy hs hb)

/-- Helper: initially every thread is outside the lock block. -/
theorem busyCount_replicate (n : Nat) :
    busyCount (List.replicate n TStat.outside) = 0 := by
  induction n with
  | zero => rfl
  | succ n ih => rw [List.replicate_succ, busyCount_cons, ih]; rfl

end Odemis.XTConn

namespace Odemis

/-- Claim C1 (amended): on an xt_client connection, at most one
transport call is in flight at any instant — but the serialization is
enforced by the connection-scoped `_proxy_access` lock wrapped around
every device call, not by the actuator's single worker: device calls
are also issued from the position-poll timer, from `stop()` on the
caller's thread and from the cancel callback, and all of them must hold
the lock while their call is in flight.  (For the phenom
`ChamberPressure`, where the remaining-time updater polls the device
without any lock, the per-actuator bound fails; see the
counterexample.) -/
theorem claim_C1 (n : Nat) (acts : List XTConn.ConnAct) (ts : List XTConn.TStat)
    (h : XTConn.connRun (List.replicate n XTConn.TStat.outside) acts = some ts) :
    XTConn.callingCount ts ≤ 1 := by
  have hb := XTConn.connRun_busy acts (List.replicate n XTConn.TStat.outside) ts h
    (by rw [XTConn.busyCount_replicate]; omega)
  exact le_trans (XTConn.callingCount_le_busyCount ts) hb

/-- Witness for claim C1 (amended): three threads — say the worker, the
position-poll timer and a `stop()` caller — interleave two complete
locked transport calls; the reachable state keeps at most one call in
flight. -/
theorem claim_C1_witness :
    XTConn.connRun (List.replicate 3 XTConn.TStat.outside)
        [XTConn.ConnAct.acquire 0, XTConn.ConnAct.beginCall 0, XTConn.ConnAct.endCall 0,
         XTConn.ConnAct.release 0, XTConn.ConnAct.acquire 1, XTConn.ConnAct.beginCall 1] =
      some [XTConn.TStat.outside, XTConn.TStat.calling, XTConn.TStat.outside]
    ∧ XTConn.callingCount
        [XTConn.TStat.outside, XTConn.TStat.calling, XTConn.TStat.outside] ≤ 1 :=
  ⟨by decide,
   claim_C1 3
     [XTConn.ConnAct.acquire 0, XTConn.ConnAct.beginCall 0, XTConn.ConnAct.endCall 0,
      XTConn.ConnAct.release 0, XTConn.ConnAct.acquire 1, XTConn.ConnAct.beginCall 1]
     [XTConn.TStat.outside, XTConn.TStat.calling, XTConn.TStat.outside] (by decide)⟩

/-- Counterexample for claim C1 as stated: in the phenom
`ChamberPressure`, the worker's blocking pressure-change call
(`SelectImagingDevice`, issued under the acquisition lock with the
remaining-time updater already started) and the updater thread's
unguarded `GetProgressAreaSelection` can be in flight at the same time:
the interleaving acquire-lock, start-timer, worker-begin-call,
timer-begin-call is reachable and leaves two device calls for the same
actuator in flight, and the second one does not execute on the
actuator's worker. -/
theorem claim_C1_counterexample :
    (ChamberConc.chamberRun ChamberConc.chamberInit
        [ChamberConc.ChamberAct.acquireLock, ChamberConc.ChamberAct.startTimer,
         ChamberConc.ChamberAct.workerBeginCall,
         ChamberConc.ChamberAct.timerBeginCall]).map ChamberConc.inFlight = some 2 := by
  decide

end Odemis
